import Mathlib

/-!
# go-pkg: logger, session, thread identifiers and health handler

A shallow embedding of the Go packages `logger`, `session`, `utils` and
`grpc/health`.  Go values of type `interface{}` are a closed inductive
`Value`; the two zap loggers held by `zapLogger` write to two logical streams
of a `Streams` state that is passed explicitly; the wall clock is an explicit
argument of every function that calls `time.Now()`.
-/

namespace GoPkg

/-! ## Go values -/

/-- A `proto.Message`: its type name and the text the package-level
`JsonPbMarshaller` produces for it. -/
structure ProtoMessage where
  name : String
  jsonpb : String
deriving DecidableEq, Repr

/-- The dynamic values an `interface{}` holds in this repository:
`nil`, strings, booleans, integers, `float64` numbers decoded from a JSON
literal (mantissa and decimal exponent), proto messages, `map[string]interface{}`
(nil or not), `[]interface{}`, `struct{}{}` and the concurrent map of a session. -/
inductive Value where
  | nil : Value
  | str (s : String) : Value
  | bool (b : Bool) : Value
  | int (n : Int) : Value
  | float64 (mant : Int) (exp10 : Int) : Value
  | message (p : ProtoMessage) : Value
  | nilMap : Value
  | object (kvs : List (String × Value)) : Value
  | slice (xs : List Value) : Value
  | emptyStruct : Value
  | cmap (items : List (String × Value)) : Value

instance : Inhabited Value := ⟨Value.nil⟩

/-- The package variable `json`: a codec whose `Unmarshal` decodes a string into a
`map[string]interface{}` (`some js`) or reports an error (`none`). -/
structure JsonCodec where
  Unmarshal : String → Option Value

/-! ## zap fields and the two loggers -/

/-- The payload of a `zap.Field`. -/
inductive FieldVal where
  | string (s : String) : FieldVal
  | int64 (n : Int) : FieldVal
  | int (n : Int) : FieldVal
  | any (v : Value) : FieldVal
  | object (pb : ProtoMessage) : FieldVal

/-- A `zap.Field`: a key and a typed payload. -/
structure Field where
  key : String
  val : FieldVal

/-- The constructor `zap.String`. -/
def zapString (key val : String) : Field := ⟨key, FieldVal.string val⟩

/-- The constructor `zap.Int64`. -/
def zapInt64 (key : String) (val : Int) : Field := ⟨key, FieldVal.int64 val⟩

/-- The constructor `zap.Int`. -/
def zapInt (key : String) (val : Int) : Field := ⟨key, FieldVal.int val⟩

/-- The constructor `zap.Any`: zap picks the representation from the dynamic type of
the value; the field keeps the value as it was given, nothing is decoded. -/
def zapAny (key : String) (val : Value) : Field := ⟨key, FieldVal.any val⟩

/-- The constructor `zap.Object` applied to `&jsonpbObjectMarshaler{pb: p}`: the
encoder later calls `MarshalLogObject`, which adds the jsonpb rendering under "msg". -/
def zapObject (key : String) (pb : ProtoMessage) : Field := ⟨key, FieldVal.object pb⟩

/-- Function `toJSON` of logger.go. -/
def toJSON (json : JsonCodec) (obj : Value) : Value :=
  match obj with
  | Value.nil => Value.nil
  | Value.str w =>
    match json.Unmarshal w with
    | none => Value.str w
    | some js => js
  | other => other

/-- Function `FormatLog` of logger.go. -/
def FormatLog (json : JsonCodec) (key : String) (msg : Value) : Field :=
  match msg with
  | Value.message p => zapObject key p
  | other => zapAny key (toJSON json other)

/-- The levels of zapcore, in increasing order. -/
inductive Level where
  | Debug | Info | Warn | Error | DPanic | Panic | Fatal
deriving DecidableEq, Repr

/-- The numeric value of a zapcore level. -/
def Level.toInt : Level → Int
  | Level.Debug => -1
  | Level.Info => 0
  | Level.Warn => 1
  | Level.Error => 2
  | Level.DPanic => 3
  | Level.Panic => 4
  | Level.Fatal => 5

/-- What zap does once an entry has been written. -/
inductive Halt where
  | none | panic | exit
deriving DecidableEq, Repr

/-- The write action zap attaches to a level (a production logger). -/
def Level.halt : Level → Halt
  | Level.Panic => Halt.panic
  | Level.Fatal => Halt.exit
  | _ => Halt.none

/-- The two encoders built by `getEncoder` and `getTdrEncoder`. -/
inductive Encoder where
  | main | tdr
deriving DecidableEq, Repr

/-- Where a core writes: standard output, or rotating files. -/
inductive WriteSyncer where
  | stdout : WriteSyncer
  | rotate (pattern linkName : String) (maxAgeHours : Int) (rotationHours : Int) : WriteSyncer
deriving DecidableEq, Repr

/-- A `zapcore.Core`: encoder, writer and the lowest enabled level. -/
structure Core where
  enc : Encoder
  out : WriteSyncer
  level : Level
deriving DecidableEq, Repr

/-- A `zap.Logger` with its core and caller skip. -/
structure ZapCoreLogger where
  core : Core
  callerSkip : Nat
deriving DecidableEq, Repr

/-- One encoded line: level, message and the structured fields. -/
structure Entry where
  level : Level
  message : String
  fields : List Field

/-- The lines written so far through the main logger and through the TDR logger. -/
structure Streams where
  main : List Entry
  tdr : List Entry

/-- Writing through a `zap.Logger`: the entry is appended when the core enables its level. -/
def ZapCoreLogger.write (lg : ZapCoreLogger) (lvl : Level) (message : String)
    (fields : List Field) (sink : List Entry) : List Entry :=
  if lg.core.level.toInt ≤ lvl.toInt then sink ++ [⟨lvl, message, fields⟩] else sink

/-- The struct `Options` of options.go. -/
structure Options where
  FileLocation : String
  FileTdrLocation : String
  FileMaxAge : Int
  Stdout : Bool
deriving DecidableEq, Repr

/-- The struct `zapLogger`. -/
structure zapLogger where
  logger : ZapCoreLogger
  loggerTdr : ZapCoreLogger
deriving DecidableEq, Repr

/-- The result of a leveled call: the streams, and whether the process goes on. -/
structure Outcome where
  out : Streams
  halt : Halt

namespace Logger

/-- Function `New` of logger.go.  `rotateLogsNew` is the constructor of the rotating
writer (pattern, link name, maximal age in hours, rotation time in hours); `none` is
its error, on which `New` panics. -/
def New (rotateLogsNew : String → String → Int → Int → Option WriteSyncer)
    (config : Options) : Option zapLogger :=
  let writer : Option WriteSyncer :=
    if config.Stdout then some WriteSyncer.stdout
    else rotateLogsNew (config.FileLocation ++ ".%Y%m%d") config.FileLocation
      (config.FileMaxAge * 24) 1
  match writer with
  | none => none
  | some writer =>
    let core : Core := ⟨Encoder.main, writer, Level.Info⟩
    let logger : ZapCoreLogger := ⟨core, 3⟩
    let tdrWriter : Option WriteSyncer :=
      if config.Stdout then some WriteSyncer.stdout
      else rotateLogsNew (config.FileTdrLocation ++ ".%Y%m%d") config.FileTdrLocation
        (config.FileMaxAge * 24) 1
    match tdrWriter with
    | none => none
    | some tdrWriter =>
      let tdrCore : Core := ⟨Encoder.tdr, tdrWriter, Level.Info⟩
      let loggerTdr : ZapCoreLogger := ⟨tdrCore, 2⟩
      some ⟨logger, loggerTdr⟩

/-- The rotating writer of file-rotatelogs; it accepts every pattern here. -/
def rotateLogsNew (pattern linkName : String) (maxAgeHours rotationHours : Int) :
    Option WriteSyncer :=
  some (WriteSyncer.rotate pattern linkName maxAgeHours rotationHours)

end Logger

/-- A leveled call on the main logger. -/
def zapLogger.leveled (l : zapLogger) (lvl : Level) (message : String)
    (fields : List Field) (w : Streams) : Outcome :=
  ⟨⟨l.logger.write lvl message fields w.main, w.tdr⟩, lvl.halt⟩

/-- Method `Debug`. -/
def zapLogger.Debug (l : zapLogger) (message : String) (fields : List Field) (w : Streams) :
    Outcome := l.leveled Level.Debug message fields w

/-- Method `Info`. -/
def zapLogger.Info (l : zapLogger) (message : String) (fields : List Field) (w : Streams) :
    Outcome := l.leveled Level.Info message fields w

/-- Method `Warn`. -/
def zapLogger.Warn (l : zapLogger) (message : String) (fields : List Field) (w : Streams) :
    Outcome := l.leveled Level.Warn message fields w

/-- Method `Error`. -/
def zapLogger.Error (l : zapLogger) (message : String) (fields : List Field) (w : Streams) :
    Outcome := l.leveled Level.Error message fields w

/-- Method `Fatal`. -/
def zapLogger.Fatal (l : zapLogger) (message : String) (fields : List Field) (w : Streams) :
    Outcome := l.leveled Level.Fatal message fields w

/-- Method `Panic`. -/
def zapLogger.Panic (l : zapLogger) (message : String) (fields : List Field) (w : Streams) :
    Outcome := l.leveled Level.Panic message fields w

/-- The struct `LogTdrModel`. -/
structure LogTdrModel where
  AppName : String
  AppVersion : String
  IP : String
  Port : Int
  SrcIP : String
  RespTime : Int
  Path : String
  Header : Value
  Request : Value
  Response : Value
  Error : String
  ThreadID : String
  AdditionalData : Value

/-- The field list that method `TDR` hands to the TDR logger. -/
def tdrFields (json : JsonCodec) (model : LogTdrModel) : List Field :=
  [ zapString "xid" model.ThreadID,
    zapInt64 "rt" model.RespTime,
    zapInt "port" model.Port,
    zapString "ip" model.IP,
    zapString "app" model.AppName,
    zapString "ver" model.AppVersion,
    zapString "path" model.Path,
    zapAny "header" model.Header,
    FormatLog json "req" model.Request,
    FormatLog json "resp" model.Response,
    zapString "srcIP" model.SrcIP,
    zapString "error" model.Error,
    FormatLog json "addData" model.AdditionalData ]

/-- Method `TDR`: one Info entry on the TDR logger. -/
def zapLogger.TDR (json : JsonCodec) (l : zapLogger) (model : LogTdrModel) (w : Streams) :
    Streams :=
  ⟨w.main, l.loggerTdr.write Level.Info "|" (tdrFields json model) w.tdr⟩

/-! ## Time -/

/-- A `time.Time`: the instant, in nanoseconds on the time line of package `time`
(the zero `Time` is instant 0, January 1 of year 1).  One time line is kept: the wall
clock and the monotonic clock of `time.Now()` are not told apart. -/
structure Time where
  ns : Int
deriving DecidableEq, Repr

/-- The largest `time.Duration`, `1<<63 - 1` nanoseconds. -/
def maxDuration : Int := 9223372036854775807

/-- The smallest `time.Duration`, `-1 << 63` nanoseconds. -/
def minDuration : Int := -9223372036854775808

/-- Method `Time.Sub`: the duration `t - u` as an int64 count of nanoseconds; when the
difference does not fit, the largest (or smallest) duration is returned. -/
def Time.Sub (t u : Time) : Int :=
  let d := t.ns - u.ns
  if maxDuration < d then maxDuration
  else if d < minDuration then minDuration
  else d

/-- The expression `x.Sub(y).Nanoseconds()/1000000`: Go's division truncates toward zero. -/
def elapsedMillis (stop start : Time) : Int :=
  Int.tdiv (stop.Sub start) 1000000

/-- The call `fmt.Sprintf("%d ms", n)`. -/
def sprintfMs (n : Int) : String := toString n ++ " ms"

/-! ## Session -/

/-- The concurrent map of a session: a finite map from keys to values, its keys unique. -/
abbrev ConcurrentMap := List (String × Value)

/-- Function `Map.New`: the empty map. -/
def ConcurrentMap.New : ConcurrentMap := []

/-- Method `Set` of the concurrent map: the key is bound to the value, an older binding
of the key is dropped. -/
def ConcurrentMap.Set (m : ConcurrentMap) (key : String) (value : Value) : ConcurrentMap :=
  (key, value) :: m.filter (fun p => p.1 != key)

/-- Method `Get` of the concurrent map: the value bound to the key and `true`, or
`nil` and `false`. -/
def ConcurrentMap.Get (m : ConcurrentMap) (key : String) : Value × Bool :=
  match m.find? (fun p => p.1 == key) with
  | some p => (p.2, true)
  | none => (Value.nil, false)

/-- The struct `Session`. -/
structure Session where
  Map : ConcurrentMap
  Logger : zapLogger
  RequestTime : Time
  ThreadID : String
  AppName : String
  AppVersion : String
  IP : String
  Port : Int
  SrcIP : String
  URL : String
  Method : String
  Header : Value
  Request : Value
  ErrorMessage : String

namespace Session

/-- Function `New` of session.go; `now` is the reading of `time.Now()`. -/
def New (logger : zapLogger) (now : Time) : Session :=
  { RequestTime := now
    Logger := logger
    Map := ConcurrentMap.New
    Header := Value.object []
    Request := Value.emptyStruct
    ThreadID := ""
    AppName := ""
    AppVersion := ""
    IP := ""
    Port := 0
    SrcIP := ""
    URL := ""
    Method := ""
    ErrorMessage := "" }

/-- Method `SetThreadID`. -/
def SetThreadID (session : Session) (threadID : String) : Session :=
  { session with ThreadID := threadID }

/-- Method `SetMethod`. -/
def SetMethod (session : Session) (method : String) : Session :=
  { session with Method := method }

/-- Method `SetAppName`. -/
def SetAppName (session : Session) (appName : String) : Session :=
  { session with AppName := appName }

/-- Method `SetAppVersion`. -/
def SetAppVersion (session : Session) (appVersion : String) : Session :=
  { session with AppVersion := appVersion }

/-- Method `SetURL`. -/
def SetURL (session : Session) (url : String) : Session :=
  { session with URL := url }

/-- Method `SetIP`. -/
def SetIP (session : Session) (ip : String) : Session :=
  { session with IP := ip }

/-- Method `SetPort`. -/
def SetPort (session : Session) (port : Int) : Session :=
  { session with Port := port }

/-- Method `SetSrcIP`. -/
def SetSrcIP (session : Session) (srcIp : String) : Session :=
  { session with SrcIP := srcIp }

/-- Method `SetHeader`. -/
def SetHeader (session : Session) (header : Value) : Session :=
  { session with Header := header }

/-- Method `SetRequest`. -/
def SetRequest (session : Session) (request : Value) : Session :=
  { session with Request := request }

/-- Method `SetErrorMessage`. -/
def SetErrorMessage (session : Session) (errorMessage : String) : Session :=
  { session with ErrorMessage := errorMessage }

/-- Method `Get`: the data and the error, `some "not found"` when the key is absent. -/
def Get (session : Session) (key : String) : Value × Option String :=
  let r := session.Map.Get key
  if r.2 then (r.1, none) else (r.1, some "not found")

/-- Method `Put`. -/
def Put (session : Session) (key : String) (data : Value) : Session :=
  { session with Map := session.Map.Set key data }

end Session

/-- Function `formatLogs` of session.go: the loop keeps the index and the record built
so far; `cast.ToString` of an index is its decimal rendering. -/
def formatLogs (json : JsonCodec) (message : List Value) : List Field :=
  (message.foldl
    (fun (st : Nat × List Field) msg =>
      (st.1 + 1, st.2 ++ [FormatLog json ("_message_" ++ toString st.1) msg]))
    (0, [])).2

/-- The four leading fields every trace method builds. -/
def Session.logRecord (session : Session) (tag : String) : List Field :=
  [ zapString "_app_tag" tag,
    zapString "_app_thread_id" session.ThreadID,
    zapString "_app_method" session.Method,
    zapString "_app_uri" session.URL ]

namespace Session

/-- Method `T1`. -/
def T1 (json : JsonCodec) (session : Session) (message : List Value) (w : Streams) : Streams :=
  let logRecord := session.logRecord "T1"
  let msg := formatLogs json message
  let logRecord := logRecord ++ msg
  (session.Logger.Info "|" logRecord w).out

/-- Method `T2`; `now` is the reading of `time.Now()` that is returned. -/
def T2 (json : JsonCodec) (session : Session) (now : Time) (message : List Value)
    (w : Streams) : Streams × Time :=
  let logRecord := session.logRecord "T2"
  let msg := formatLogs json message
  let logRecord := logRecord ++ msg
  ((session.Logger.Info "|" logRecord w).out, now)

/-- Method `T3`; `stop` is the reading of `time.Now()` at entry. -/
def T3 (json : JsonCodec) (session : Session) (stop : Time) (startProcessTime : Time)
    (message : List Value) (w : Streams) : Streams :=
  let logRecord := session.logRecord "T3"
  let msg := formatLogs json message
  let logRecord := logRecord ++ msg
  let logRecord := logRecord ++
    [zapString "_process_time" (sprintfMs (elapsedMillis stop startProcessTime))]
  (session.Logger.Info "|" logRecord w).out

/-- The record method `T4` hands to `Logger.TDR`. -/
def tdrModel (session : Session) (rt : Int) (message : List Value) : LogTdrModel :=
  { AppName := session.AppName
    AppVersion := session.AppVersion
    IP := session.IP
    Port := session.Port
    SrcIP := session.SrcIP
    RespTime := rt
    Path := session.URL
    Header := session.Header
    Request := session.Request
    Response := Value.slice message
    Error := session.ErrorMessage
    ThreadID := session.ThreadID
    AdditionalData := Value.cmap session.Map }

/-- Method `T4`; `stop` is the reading of `time.Now()` at entry. -/
def T4 (json : JsonCodec) (session : Session) (stop : Time) (message : List Value)
    (w : Streams) : Streams :=
  let rt := elapsedMillis stop session.RequestTime
  let logRecord := session.logRecord "T4"
  let msg := formatLogs json message
  let logRecord := logRecord ++ msg
  let logRecord := logRecord ++ [zapString "_response_time" (sprintfMs rt)]
  let w := (session.Logger.Info "|" logRecord w).out
  session.Logger.TDR json (session.tdrModel rt message) w

/-- Method `Info`. -/
def Info (json : JsonCodec) (session : Session) (message : List Value) (w : Streams) :
    Streams :=
  let logRecord := session.logRecord "INFO"
  let msg := formatLogs json message
  let logRecord := logRecord ++ msg
  (session.Logger.Info "|" logRecord w).out

/-- Method `Error`. -/
def Error (json : JsonCodec) (session : Session) (message : List Value) (w : Streams) :
    Streams :=
  let logRecord := session.logRecord "ERROR"
  let msg := formatLogs json message
  let logRecord := logRecord ++ msg
  (session.Logger.Error "|" logRecord w).out

end Session

/-- One call of a setter or of `Put` on a session. -/
inductive Call where
  | SetThreadID (threadID : String) : Call
  | SetMethod (method : String) : Call
  | SetAppName (appName : String) : Call
  | SetAppVersion (appVersion : String) : Call
  | SetURL (url : String) : Call
  | SetIP (ip : String) : Call
  | SetPort (port : Int) : Call
  | SetSrcIP (srcIp : String) : Call
  | SetHeader (header : Value) : Call
  | SetRequest (request : Value) : Call
  | SetErrorMessage (errorMessage : String) : Call
  | Put (key : String) (data : Value) : Call

/-- The session after one call. -/
def Session.call (session : Session) : Call → Session
  | Call.SetThreadID x => session.SetThreadID x
  | Call.SetMethod x => session.SetMethod x
  | Call.SetAppName x => session.SetAppName x
  | Call.SetAppVersion x => session.SetAppVersion x
  | Call.SetURL x => session.SetURL x
  | Call.SetIP x => session.SetIP x
  | Call.SetPort x => session.SetPort x
  | Call.SetSrcIP x => session.SetSrcIP x
  | Call.SetHeader x => session.SetHeader x
  | Call.SetRequest x => session.SetRequest x
  | Call.SetErrorMessage x => session.SetErrorMessage x
  | Call.Put k d => session.Put k d

/-- The session after a sequence of calls, in order. -/
def Session.calls (session : Session) (cs : List Call) : Session :=
  cs.foldl Session.call session

/-- The key of a `Put` call. -/
def Call.putKey : Call → Option String
  | Call.Put k _ => some k
  | _ => none

/-- The logger `New` builds for a configuration with `Stdout: true`. -/
def consoleLogger : zapLogger :=
  ⟨⟨⟨Encoder.main, WriteSyncer.stdout, Level.Info⟩, 3⟩,
   ⟨⟨Encoder.tdr, WriteSyncer.stdout, Level.Info⟩, 2⟩⟩

/-! ## The JSON decoder behind the package variable `json`

`json.Unmarshal([]byte(w), &js)` with `js` a `map[string]interface{}`: the text must be
one JSON object (or `null`, which leaves the map nil), surrounded by white space only.
Numbers decode to `float64`, kept here as a decimal mantissa and exponent; a repeated
key keeps its last value. -/

namespace Json

/-- White space of JSON. -/
def isWs (c : Char) : Bool :=
  c == ' ' || c == '\n' || c == '\t' || c == '\r'

/-- Drop leading white space. -/
def skipWs : List Char → List Char
  | [] => []
  | c :: cs => if isWs c then skipWs cs else c :: cs

/-- The value of a hexadecimal digit. -/
def hexVal (c : Char) : Option Nat :=
  if '0' ≤ c ∧ c ≤ '9' then some (c.toNat - 48)
  else if 'a' ≤ c ∧ c ≤ 'f' then some (c.toNat - 87)
  else if 'A' ≤ c ∧ c ≤ 'F' then some (c.toNat - 55)
  else none

/-- The character a one-letter escape stands for. -/
def unescape (c : Char) : Option Char :=
  if c == '"' then some '"'
  else if c == '\\' then some '\\'
  else if c == '/' then some '/'
  else if c == 'b' then some (Char.ofNat 8)
  else if c == 'f' then some (Char.ofNat 12)
  else if c == 'n' then some '\n'
  else if c == 'r' then some '\r'
  else if c == 't' then some '\t'
  else none

/-- The body of a string after its opening quote: the decoded text and the rest.
`acc` holds the characters read so far, last first. -/
def parseString : List Char → List Char → Option (String × List Char)
  | [], _ => none
  | c :: cs, acc =>
    if c == '"' then some (String.mk acc.reverse, cs)
    else if c == '\\' then
      match cs with
      | [] => none
      | e :: rest =>
        if e == 'u' then
          match rest with
          | h1 :: h2 :: h3 :: h4 :: rest2 =>
            match hexVal h1, hexVal h2, hexVal h3, hexVal h4 with
            | some a, some b, some c4, some d =>
              parseString rest2 (Char.ofNat (((a * 16 + b) * 16 + c4) * 16 + d) :: acc)
            | _, _, _, _ => none
          | _ => none
        else
          match unescape e with
          | some x => parseString rest (x :: acc)
          | none => none
    else if c.toNat < 32 then none
    else parseString cs (c :: acc)

/-- Leading decimal digits: their value, their count, and the rest. -/
def takeDigits : List Char → Nat → Nat → Nat × Nat × List Char
  | [], v, n => (v, n, [])
  | c :: cs, v, n =>
    if '0' ≤ c ∧ c ≤ '9' then takeDigits cs (v * 10 + (c.toNat - 48)) (n + 1)
    else (v, n, c :: cs)

/-- The part of a number after its sign: integer digits (no leading zero before
another digit), an optional fraction, an optional exponent. -/
def parseUnsigned (cs : List Char) : Option (Int × Int × List Char) :=
  match takeDigits cs 0 0 with
  | (_, 0, _) => none
  | (iv, ni, r1) =>
    if ni > 1 ∧ cs.head? = some '0' then none
    else
      let frac : Option (Nat × Nat × List Char) :=
        match r1 with
        | '.' :: r2 =>
          match takeDigits r2 0 0 with
          | (_, 0, _) => none
          | (fv, nf, r3) => some (iv * 10 ^ nf + fv, nf, r3)
        | _ => some (iv, 0, r1)
      match frac with
      | none => none
      | some (mant, nf, r3) =>
        let expo : Option (Int × List Char) :=
          match r3 with
          | e :: r4 =>
            if e == 'e' || e == 'E' then
              match r4 with
              | '-' :: r5 =>
                match takeDigits r5 0 0 with
                | (_, 0, _) => none
                | (ev, _, r6) => some (-(ev : Int), r6)
              | '+' :: r5 =>
                match takeDigits r5 0 0 with
                | (_, 0, _) => none
                | (ev, _, r6) => some ((ev : Int), r6)
              | _ =>
                match takeDigits r4 0 0 with
                | (_, 0, _) => none
                | (ev, _, r6) => some ((ev : Int), r6)
            else some (0, r3)
          | [] => some (0, [])
        match expo with
        | none => none
        | some (ev, r6) => some ((mant : Int), ev - (nf : Int), r6)

/-- A JSON number. -/
def parseNumber (cs : List Char) : Option (Value × List Char) :=
  match cs with
  | '-' :: rest =>
    match parseUnsigned rest with
    | some (m, e, r) => some (Value.float64 (-m) e, r)
    | none => none
  | _ =>
    match parseUnsigned cs with
    | some (m, e, r) => some (Value.float64 m e, r)
    | none => none

/-- Bind a key in a decoded object; a repeated key keeps the last value. -/
def bind (kvs : List (String × Value)) (k : String) (v : Value) : List (String × Value) :=
  kvs.filter (fun p => p.1 != k) ++ [(k, v)]

/-- What the decoder is reading: a value, the members of an object, the elements of an
array (with what has been read of them). -/
inductive Mode where
  | value : Mode
  | members (acc : List (String × Value)) : Mode
  | elems (acc : List Value) : Mode

/-- The decoder, with a bound on its depth of calls: the value read and the rest. -/
def parse : Nat → Mode → List Char → Option (Value × List Char)
  | 0, _, _ => none
  | fuel + 1, Mode.value, cs =>
    match skipWs cs with
    | [] => none
    | c :: rest =>
      if c == '\x7b' then
        match skipWs rest with
        | [] => none
        | d :: rest2 =>
          if d == '\x7d' then some (Value.object [], rest2)
          else parse fuel (Mode.members []) (d :: rest2)
      else if c == '[' then
        match skipWs rest with
        | [] => none
        | d :: rest2 =>
          if d == ']' then some (Value.slice [], rest2)
          else parse fuel (Mode.elems []) (d :: rest2)
      else if c == '"' then
        match parseString rest [] with
        | some (s, r) => some (Value.str s, r)
        | none => none
      else if c == 't' then
        match rest with
        | 'r' :: 'u' :: 'e' :: r => some (Value.bool true, r)
        | _ => none
      else if c == 'f' then
        match rest with
        | 'a' :: 'l' :: 's' :: 'e' :: r => some (Value.bool false, r)
        | _ => none
      else if c == 'n' then
        match rest with
        | 'u' :: 'l' :: 'l' :: r => some (Value.nil, r)
        | _ => none
      else parseNumber (c :: rest)
  | fuel + 1, Mode.members acc, cs =>
    match skipWs cs with
    | [] => none
    | q :: rest =>
      if q == '"' then
        match parseString rest [] with
        | none => none
        | some (k, r) =>
          match skipWs r with
          | [] => none
          | colon :: r2 =>
            if colon == ':' then
              match parse fuel Mode.value r2 with
              | none => none
              | some (v, r3) =>
                match skipWs r3 with
                | [] => none
                | sep :: r4 =>
                  if sep == ',' then parse fuel (Mode.members (bind acc k v)) r4
                  else if sep == '\x7d' then some (Value.object (bind acc k v), r4)
                  else none
            else none
      else none
  | fuel + 1, Mode.elems acc, cs =>
    match parse fuel Mode.value cs with
    | none => none
    | some (v, r) =>
      match skipWs r with
      | [] => none
      | sep :: r2 =>
        if sep == ',' then parse fuel (Mode.elems (acc ++ [v])) r2
        else if sep == ']' then some (Value.slice (acc ++ [v]), r2)
        else none

/-- Decoding a text into a `map[string]interface{}`: an object gives the map, `null`
leaves the map nil, anything else is an error. -/
def Unmarshal (w : String) : Option Value :=
  match parse (2 * w.length + 2) Mode.value w.data with
  | some (Value.object kvs, r) => if skipWs r = [] then some (Value.object kvs) else none
  | some (Value.nil, r) => if skipWs r = [] then some Value.nilMap else none
  | _ => none

end Json

/-- The codec `jsoniter.ConfigCompatibleWithStandardLibrary` the package variable
`json` is set to. -/
def jsoniterCompatible : JsonCodec := ⟨Json.Unmarshal⟩

/-- The field a field list holds under a key, if any (the first one). -/
def fieldOf (key : String) (fields : List Field) : Option Field :=
  fields.find? (fun f => f.key == key)

/-! ## The argument of the last call of a setter -/

/-- The argument of a `SetThreadID` call. -/
def Call.threadID : Call → Option String
  | Call.SetThreadID x => some x
  | _ => none

/-- The argument of a `SetAppName` call. -/
def Call.appName : Call → Option String
  | Call.SetAppName x => some x
  | _ => none

/-- The argument of a `SetAppVersion` call. -/
def Call.appVersion : Call → Option String
  | Call.SetAppVersion x => some x
  | _ => none

/-- The argument of a `SetURL` call. -/
def Call.url : Call → Option String
  | Call.SetURL x => some x
  | _ => none

/-- The argument of a `SetIP` call. -/
def Call.ip : Call → Option String
  | Call.SetIP x => some x
  | _ => none

/-- The argument of a `SetPort` call. -/
def Call.port : Call → Option Int
  | Call.SetPort x => some x
  | _ => none

/-- The argument of a `SetSrcIP` call. -/
def Call.srcIP : Call → Option String
  | Call.SetSrcIP x => some x
  | _ => none

/-- The argument of a `SetHeader` call. -/
def Call.header : Call → Option Value
  | Call.SetHeader x => some x
  | _ => none

/-- The argument of a `SetRequest` call. -/
def Call.request : Call → Option Value
  | Call.SetRequest x => some x
  | _ => none

/-- The argument of a `SetErrorMessage` call. -/
def Call.errorMessage : Call → Option String
  | Call.SetErrorMessage x => some x
  | _ => none

/-- The data of a `Put` call on key `k`. -/
def Call.putData (k : String) : Call → Option Value
  | Call.Put j d => if j = k then some d else none
  | _ => none

/-- The argument of the last call a selector picks in a sequence of calls. -/
def lastArg {α : Type} (sel : Call → Option α) (cs : List Call) : Option α :=
  (cs.filterMap sel).getLast?

/-! ## Thread identifiers (utils/random.go) -/

/-- Method `Time.Unix`: whole seconds since January 1, 1970 (the zero time is
62135596800 seconds before it). -/
def Time.Unix (t : Time) : Int := t.ns / 1000000000 - 62135596800

/-- Method `Time.Nanosecond`: the nanosecond within the second, in `[0, 999999999]`. -/
def Time.Nanosecond (t : Time) : Int := t.ns % 1000000000

/-- An integer wrapped into int64. -/
def wrapInt64 (x : Int) : Int := (x + 9223372036854775808) % 18446744073709551616 - 9223372036854775808

/-- Method `Time.UnixNano`: nanoseconds since January 1, 1970, in int64 arithmetic. -/
def Time.UnixNano (t : Time) : Int := wrapInt64 (t.Unix * 1000000000 + t.Nanosecond)

/-- Function `ulid.Timestamp`: `uint64(t.Unix())*1000 + uint64(t.Nanosecond()/1e6)`, in
uint64 arithmetic. -/
def ulidTimestamp (t : Time) : Nat :=
  (((t.Unix % 18446744073709551616) * 1000 + t.Nanosecond / 1000000)
    % 18446744073709551616).toNat

/-- The largest time a ULID holds, `ulid.MaxTime()`: 48 bits of milliseconds. -/
def ulidMaxTime : Nat := 281474976710655

/-- The alphabet `ulid.Encoding` (Crockford base 32). -/
def crockford : List Char := "0123456789ABCDEFGHJKMNPQRSTVWXYZ".data

/-- The character of one base-32 digit. -/
def crockfordChar (d : Nat) : Char := crockford.getD d '0'

/-- The `n` base-32 digits of `v`, most significant first. -/
def encode32 : Nat → Nat → List Char
  | 0, _ => []
  | n + 1, v => encode32 n (v / 32) ++ [crockfordChar (v % 32)]

/-- Method `ULID.String`: ten characters for the 48 bits of time, sixteen for the 80
bits of entropy. -/
def ulidString (ms entropy : Nat) : String :=
  String.mk (encode32 10 ms ++ encode32 16 entropy)

/-- Function `GenerateThreadID`; `t` is the reading of `time.Now()`, and `randRead seed`
is the number held by the ten bytes first read from `rand.New(rand.NewSource(seed))`.
`none` is the panic of `ulid.MustNew` on a time above `ulid.MaxTime()`. -/
def GenerateThreadID (randRead : Int → Nat) (t : Time) : Option String :=
  let entropy := randRead t.UnixNano
  let ms := ulidTimestamp t
  if ms > ulidMaxTime then none
  else some (ulidString ms (entropy % 1208925819614629174706176))

/-! ## Health handler (grpc/health/health.go) -/

namespace Health

/-- The enum `HealthCheckResponse_ServingStatus`. -/
inductive ServingStatus where
  | UNKNOWN | SERVING | NOT_SERVING | SERVICE_UNKNOWN
deriving DecidableEq, Repr

/-- The message `HealthCheckRequest`. -/
structure HealthCheckRequest where
  Service : String
deriving DecidableEq, Repr

/-- The message `HealthCheckResponse`. -/
structure HealthCheckResponse where
  Status : ServingStatus
deriving DecidableEq, Repr

/-- A `context.Context`, as far as a handler can observe it: cancelled or not. -/
structure Context where
  cancelled : Bool
deriving DecidableEq, Repr

/-- A `Health_WatchServer`: the responses sent on the stream so far. -/
structure WatchServer where
  sent : List HealthCheckResponse
deriving DecidableEq, Repr

/-- Method `healthImpl.Check`: the response and the error (`none` is a nil error); the
request pointer may be nil. -/
def Check (_ctx : Context) (_req : Option HealthCheckRequest) :
    HealthCheckResponse × Option String :=
  (⟨ServingStatus.SERVING⟩, none)

/-- Method `healthImpl.Watch`: the stream afterwards and the error. -/
def Watch (_req : Option HealthCheckRequest) (w : WatchServer) : WatchServer × Option String :=
  (w, none)

end Health

end GoPkg

/-! # Theorems -/

namespace GoPkg

/-! ## The key-value store of a session -/

theorem ConcurrentMap.get_set_same (m : ConcurrentMap) (k : String) (v : Value) :
    (m.Set k v).Get k = (v, true) := by
  simp [ConcurrentMap.Set, ConcurrentMap.Get]

theorem ConcurrentMap.find_filter_ne (m : ConcurrentMap) (k j : String) (h : j ≠ k) :
    (m.filter (fun p => p.1 != j)).find? (fun p => p.1 == k) = m.find? (fun p => p.1 == k) := by
  induction m with
  | nil => rfl
  | cons p m ih =>
    rw [List.filter_cons, List.find?_cons]
    by_cases hj : p.1 = j
    · have hk : (p.1 == k) = false := by
        rw [beq_eq_false_iff_ne]
        exact fun e => h (hj.symm.trans e)
      have hj2 : (p.1 != j) = false := by simp [hj]
      rw [hk, hj2]
      simpa using ih
    · have hj2 : (p.1 != j) = true := by simp [hj]
      rw [hj2]
      simp only [if_true]
      rw [List.find?_cons, ih]

theorem ConcurrentMap.get_set_other (m : ConcurrentMap) (k j : String) (v : Value)
    (h : j ≠ k) : (m.Set j v).Get k = m.Get k := by
  have hjk : (j == k) = false := by
    rw [beq_eq_false_iff_ne]
    exact h
  unfold ConcurrentMap.Set ConcurrentMap.Get
  rw [List.find?_cons]
  simp only [hjk]
  rw [ConcurrentMap.find_filter_ne m k j h]

theorem Session.call_map_get (s : Session) (c : Call) (k : String) (h : c.putKey ≠ some k) :
    (s.call c).Map.Get k = s.Map.Get k := by
  cases c <;> try rfl
  case Put j d =>
    have hj : j ≠ k := fun e => h (by simp [Call.putKey, e])
    exact ConcurrentMap.get_set_other s.Map k j d hj

theorem Session.calls_map_get (cs : List Call) (s : Session) (k : String)
    (h : ∀ c ∈ cs, c.putKey ≠ some k) : (s.calls cs).Map.Get k = s.Map.Get k := by
  induction cs generalizing s with
  | nil => rfl
  | cons c cs ih =>
    have h1 : c.putKey ≠ some k := h c (List.mem_cons_self c cs)
    have h2 : ∀ d ∈ cs, d.putKey ≠ some k := fun d hd => h d (List.mem_cons_of_mem c hd)
    show ((s.call c).calls cs).Map.Get k = s.Map.Get k
    rw [ih (s.call c) h2, Session.call_map_get s c k h1]

/-- C1: on a session created by `New`, after any calls, `Put(k, v)` followed by setter
calls and `Put` calls on keys other than `k` makes `Get(k)` return `v` with no error; and
`Get` of a key no `Put` ever named returns the error "not found" with nil data. -/
theorem session_put_then_get (logger : zapLogger) (now : Time) :
    (∀ (before after : List Call) (k : String) (v : Value),
      (∀ c ∈ after, c.putKey ≠ some k) →
      ((((Session.New logger now).calls before).Put k v).calls after).Get k = (v, none)) ∧
    (∀ (cs : List Call) (k : String),
      (∀ c ∈ cs, c.putKey ≠ some k) →
      ((Session.New logger now).calls cs).Get k = (Value.nil, some "not found")) := by
  constructor
  · intro before after k v h
    unfold Session.Get
    rw [Session.calls_map_get after _ k h]
    simp [Session.Put, ConcurrentMap.get_set_same]
  · intro cs k h
    unfold Session.Get
    rw [Session.calls_map_get cs _ k h]
    simp [Session.New, ConcurrentMap.New, ConcurrentMap.Get]

/-- Witness of C1 on a console logger. -/
theorem session_put_then_get_witness :
    ((∀ c ∈ [Call.Put "j" Value.nil, Call.SetPort 80], c.putKey ≠ some "k") ∧
      ((((Session.New consoleLogger ⟨5⟩).calls [Call.SetURL "/a", Call.Put "k" Value.nil]).Put
        "k" (Value.int 7)).calls [Call.Put "j" Value.nil, Call.SetPort 80]).Get "k"
        = (Value.int 7, none)) ∧
    ((∀ c ∈ [Call.Put "j" Value.nil], c.putKey ≠ some "k") ∧
      ((Session.New consoleLogger ⟨5⟩).calls [Call.Put "j" Value.nil]).Get "k"
        = (Value.nil, some "not found")) :=
  ⟨⟨by decide, (session_put_then_get consoleLogger ⟨5⟩).1 _ _ _ _ (by decide)⟩,
   ⟨by decide, (session_put_then_get consoleLogger ⟨5⟩).2 _ _ (by decide)⟩⟩

/-! ## Samples of the JSON decoder -/

theorem Json.Unmarshal_object :
    Json.Unmarshal " \x7b\"a\": [1, -2.5e3, \"x\\n\", \x7b\"b\":null\x7d], \"c\":true\x7d "
      = some (Value.object
          [("a", Value.slice [Value.float64 1 0, Value.float64 (-25) 2, Value.str "x\n",
              Value.object [("b", Value.nil)]]),
           ("c", Value.bool true)]) := by
  rfl

theorem Json.Unmarshal_repeated_key :
    Json.Unmarshal "\x7b\"a\":1,\"a\":2\x7d" = some (Value.object [("a", Value.float64 2 0)]) := by
  rfl

theorem Json.Unmarshal_errors :
    Json.Unmarshal "not json" = none ∧ Json.Unmarshal "" = none ∧
    Json.Unmarshal "[1,2]" = none ∧ Json.Unmarshal "12" = none ∧
    Json.Unmarshal "\x7b\"a\":1\x7d x" = none ∧ Json.Unmarshal "\x7b\"a\":01\x7d" = none ∧
    Json.Unmarshal "null" = some Value.nilMap := by
  refine ⟨rfl, rfl, rfl, rfl, rfl, rfl, rfl⟩

/-! ## Formatting of payloads -/

theorem FormatLog_key (json : JsonCodec) (key : String) (msg : Value) :
    (FormatLog json key msg).key = key := by
  cases msg <;> rfl

/-- C4: for a string payload `FormatLog` yields the decoded structured value when the
codec decodes the string, and the string itself when the codec reports an error; with
the codec of the package, the text `\x7b"a":1\x7d` yields an object whose key `a` is 1
and `not json` yields `not json`; nil stays nil; a value that is neither a string nor a
message is passed through unchanged. -/
theorem formatLog_parse_or_literal :
    (∀ (json : JsonCodec) (key s : String) (js : Value),
      json.Unmarshal s = some js → FormatLog json key (Value.str s) = zapAny key js) ∧
    (∀ (json : JsonCodec) (key s : String),
      json.Unmarshal s = none → FormatLog json key (Value.str s) = zapAny key (Value.str s)) ∧
    (∀ key : String, FormatLog jsoniterCompatible key (Value.str "\x7b\"a\":1\x7d")
      = zapAny key (Value.object [("a", Value.float64 1 0)])) ∧
    (∀ key : String, FormatLog jsoniterCompatible key (Value.str "not json")
      = zapAny key (Value.str "not json")) ∧
    (∀ (json : JsonCodec) (key : String), FormatLog json key Value.nil = zapAny key Value.nil) ∧
    (∀ (json : JsonCodec) (key : String) (v : Value),
      (∀ s, v ≠ Value.str s) → (∀ p, v ≠ Value.message p) →
      FormatLog json key v = zapAny key v) := by
  refine ⟨?_, ?_, ?_, ?_, ?_, ?_⟩
  · intro json key s js h
    simp [FormatLog, toJSON, h]
  · intro json key s h
    simp [FormatLog, toJSON, h]
  · intro key
    rfl
  · intro key
    rfl
  · intro json key
    rfl
  · intro json key v hs hp
    cases v with
    | str s => exact absurd rfl (hs s)
    | message p => exact absurd rfl (hp p)
    | _ => rfl

/-- Witness of C4: a decodable text, an undecodable one, and an integer payload. -/
theorem formatLog_parse_or_literal_witness :
    (jsoniterCompatible.Unmarshal "\x7b\"b\":true\x7d" = some (Value.object [("b", Value.bool true)]) ∧
      FormatLog jsoniterCompatible "req" (Value.str "\x7b\"b\":true\x7d")
        = zapAny "req" (Value.object [("b", Value.bool true)])) ∧
    (jsoniterCompatible.Unmarshal "[1,2" = none ∧
      FormatLog jsoniterCompatible "req" (Value.str "[1,2") = zapAny "req" (Value.str "[1,2")) ∧
    FormatLog jsoniterCompatible "req" (Value.int 5) = zapAny "req" (Value.int 5) :=
  ⟨⟨rfl, formatLog_parse_or_literal.1 _ _ _ _ rfl⟩,
   ⟨rfl, formatLog_parse_or_literal.2.1 _ _ _ rfl⟩,
   formatLog_parse_or_literal.2.2.2.2.2 _ _ _ (fun _ h => by cases h) (fun _ h => by cases h)⟩

/-- C5, as stated, fails: a header that is a decodable string is logged as the string,
and a header that is a message is not given the jsonpb marshaler, while the same values
as request are. -/
theorem tdr_header_not_formatted :
    ¬ (∀ (json : JsonCodec) (model : LogTdrModel),
        fieldOf "header" (tdrFields json model) = some (FormatLog json "header" model.Header) ∧
        fieldOf "req" (tdrFields json model) = some (FormatLog json "req" model.Request) ∧
        fieldOf "resp" (tdrFields json model) = some (FormatLog json "resp" model.Response) ∧
        fieldOf "addData" (tdrFields json model)
          = some (FormatLog json "addData" model.AdditionalData)) := by
  intro h
  have h1 := (h jsoniterCompatible
    { AppName := "", AppVersion := "", IP := "", Port := 0, SrcIP := "", RespTime := 0,
      Path := "", Header := Value.str "\x7b\"a\":1\x7d", Request := Value.nil,
      Response := Value.nil, Error := "", ThreadID := "", AdditionalData := Value.nil }).1
  have h2 : fieldOf "header" (tdrFields jsoniterCompatible
    { AppName := "", AppVersion := "", IP := "", Port := 0, SrcIP := "", RespTime := 0,
      Path := "", Header := Value.str "\x7b\"a\":1\x7d", Request := Value.nil,
      Response := Value.nil, Error := "", ThreadID := "", AdditionalData := Value.nil })
      = some (zapAny "header" (Value.str "\x7b\"a\":1\x7d")) := rfl
  have h3 : FormatLog jsoniterCompatible "header" (Value.str "\x7b\"a\":1\x7d")
      = zapAny "header" (Value.object [("a", Value.float64 1 0)]) := rfl
  rw [h2, h3] at h1
  simp [zapAny] at h1

/-! ## The logger built by `New` -/

theorem Logger.New_levels (rot : String → String → Int → Int → Option WriteSyncer)
    (config : Options) (l : zapLogger) (h : Logger.New rot config = some l) :
    l.logger.core.level = Level.Info ∧ l.loggerTdr.core.level = Level.Info := by
  unfold Logger.New at h
  simp only at h
  split at h
  · cases h
  · split at h
    · cases h
    · cases h
      exact ⟨rfl, rfl⟩

theorem Logger.New_console (rot : String → String → Int → Int → Option WriteSyncer) :
    Logger.New rot ⟨"", "", 0, true⟩ = some consoleLogger := rfl

theorem ZapCoreLogger.write_enabled (lg : ZapCoreLogger) (lvl : Level) (message : String)
    (fields : List Field) (sink : List Entry) (h : lg.core.level.toInt ≤ lvl.toInt) :
    lg.write lvl message fields sink = sink ++ [⟨lvl, message, fields⟩] := by
  simp [ZapCoreLogger.write, h]

/-- C5, amended: the TDR method of a logger built by `New` appends one Info line to the
TDR stream in which request, response and additional data are the fields `FormatLog`
builds (a message gets the jsonpb object marshaler, a string the codec decodes is logged
decoded, a string it rejects is logged as it is), while the header is handed over by
`zap.Any` as it is, whatever it is. -/
theorem tdr_payload_fields (rot : String → String → Int → Int → Option WriteSyncer)
    (config : Options) (l : zapLogger) (h : Logger.New rot config = some l)
    (json : JsonCodec) (model : LogTdrModel) (w : Streams) :
    (l.TDR json model w).main = w.main ∧
    (l.TDR json model w).tdr = w.tdr ++ [⟨Level.Info, "|", tdrFields json model⟩] ∧
    fieldOf "req" (tdrFields json model) = some (FormatLog json "req" model.Request) ∧
    fieldOf "resp" (tdrFields json model) = some (FormatLog json "resp" model.Response) ∧
    fieldOf "addData" (tdrFields json model)
      = some (FormatLog json "addData" model.AdditionalData) ∧
    fieldOf "header" (tdrFields json model) = some (zapAny "header" model.Header) ∧
    (∀ (key : String) (p : ProtoMessage),
      FormatLog json key (Value.message p) = zapObject key p) ∧
    (∀ (key s : String),
      FormatLog json key (Value.str s) = zapAny key ((json.Unmarshal s).getD (Value.str s))) := by
  have hl := (Logger.New_levels rot config l h).2
  refine ⟨rfl, ?_, ?_, ?_, ?_, ?_, ?_, ?_⟩
  · unfold zapLogger.TDR
    simp only
    rw [ZapCoreLogger.write_enabled]
    rw [hl]
  · simp [fieldOf, tdrFields, List.find?, zapString, zapInt64, zapInt, zapAny, FormatLog_key]
  · simp [fieldOf, tdrFields, List.find?, zapString, zapInt64, zapInt, zapAny, FormatLog_key]
  · simp [fieldOf, tdrFields, List.find?, zapString, zapInt64, zapInt, zapAny, FormatLog_key]
  · simp [fieldOf, tdrFields, List.find?, zapString, zapInt64, zapInt, zapAny]
  · intro key p
    rfl
  · intro key s
    cases hu : json.Unmarshal s <;> simp [FormatLog, toJSON, hu]

/-- Witness of C5 amended: the console logger and a record with an undecoded header. -/
theorem tdr_payload_fields_witness :
    Logger.New Logger.rotateLogsNew ⟨"", "", 0, true⟩ = some consoleLogger ∧
    fieldOf "header" (tdrFields jsoniterCompatible
      { AppName := "a", AppVersion := "1", IP := "", Port := 0, SrcIP := "", RespTime := 0,
        Path := "", Header := Value.str "\x7b\"a\":1\x7d", Request := Value.nil,
        Response := Value.nil, Error := "", ThreadID := "", AdditionalData := Value.nil })
      = some (zapAny "header" (Value.str "\x7b\"a\":1\x7d")) :=
  ⟨rfl, (tdr_payload_fields Logger.rotateLogsNew ⟨"", "", 0, true⟩ consoleLogger rfl
    jsoniterCompatible _ ⟨[], []⟩).2.2.2.2.2.1⟩

/-- C8, as stated, fails: on a logger built by `New` a `Debug` call appends nothing to
the main stream. -/
theorem debug_line_dropped :
    ¬ (∀ (rot : String → String → Int → Int → Option WriteSyncer) (config : Options)
        (l : zapLogger) (message : String) (fields : List Field) (w : Streams),
        Logger.New rot config = some l →
        (l.Debug message fields w).out.main = w.main ++ [⟨Level.Debug, message, fields⟩] ∧
        (l.Info message fields w).out.main = w.main ++ [⟨Level.Info, message, fields⟩] ∧
        (l.Warn message fields w).out.main = w.main ++ [⟨Level.Warn, message, fields⟩] ∧
        (l.Error message fields w).out.main = w.main ++ [⟨Level.Error, message, fields⟩] ∧
        (l.Fatal message fields w).out.main = w.main ++ [⟨Level.Fatal, message, fields⟩] ∧
        (l.Panic message fields w).out.main = w.main ++ [⟨Level.Panic, message, fields⟩] ∧
        (l.Debug message fields w).out.tdr = w.tdr ∧
        (l.Info message fields w).out.tdr = w.tdr ∧
        (l.Warn message fields w).out.tdr = w.tdr ∧
        (l.Error message fields w).out.tdr = w.tdr ∧
        (l.Fatal message fields w).out.tdr = w.tdr ∧
        (l.Panic message fields w).out.tdr = w.tdr) := by
  intro h
  have h1 := (h Logger.rotateLogsNew ⟨"", "", 0, true⟩ consoleLogger "m" [] ⟨[], []⟩ rfl).1
  have h2 : (consoleLogger.Debug "m" [] ⟨[], []⟩).out.main = [] := rfl
  rw [h2] at h1
  simp at h1

/-- C8, amended: on a logger built by `New`, `Info`, `Warn`, `Error`, `Fatal` and `Panic`
each append one line with their level, the message and the fields to the main stream,
`Debug` appends nothing (the core enables Info and above), and none of the six appends
to the TDR stream. -/
theorem leveled_lines (rot : String → String → Int → Int → Option WriteSyncer)
    (config : Options) (l : zapLogger) (h : Logger.New rot config = some l)
    (message : String) (fields : List Field) (w : Streams) :
    (l.Debug message fields w).out.main = w.main ∧
    (l.Info message fields w).out.main = w.main ++ [⟨Level.Info, message, fields⟩] ∧
    (l.Warn message fields w).out.main = w.main ++ [⟨Level.Warn, message, fields⟩] ∧
    (l.Error message fields w).out.main = w.main ++ [⟨Level.Error, message, fields⟩] ∧
    (l.Fatal message fields w).out.main = w.main ++ [⟨Level.Fatal, message, fields⟩] ∧
    (l.Panic message fields w).out.main = w.main ++ [⟨Level.Panic, message, fields⟩] ∧
    (l.Debug message fields w).out.tdr = w.tdr ∧
    (l.Info message fields w).out.tdr = w.tdr ∧
    (l.Warn message fields w).out.tdr = w.tdr ∧
    (l.Error message fields w).out.tdr = w.tdr ∧
    (l.Fatal message fields w).out.tdr = w.tdr ∧
    (l.Panic message fields w).out.tdr = w.tdr := by
  have hl := (Logger.New_levels rot config l h).1
  refine ⟨?_, ?_, ?_, ?_, ?_, ?_, rfl, rfl, rfl, rfl, rfl, rfl⟩
  · simp [zapLogger.Debug, zapLogger.leveled, ZapCoreLogger.write, hl, Level.toInt]
  · simp [zapLogger.Info, zapLogger.leveled, ZapCoreLogger.write, hl, Level.toInt]
  · simp [zapLogger.Warn, zapLogger.leveled, ZapCoreLogger.write, hl, Level.toInt]
  · simp [zapLogger.Error, zapLogger.leveled, ZapCoreLogger.write, hl, Level.toInt]
  · simp [zapLogger.Fatal, zapLogger.leveled, ZapCoreLogger.write, hl, Level.toInt]
  · simp [zapLogger.Panic, zapLogger.leveled, ZapCoreLogger.write, hl, Level.toInt]

/-- Witness of C8 amended: a logger writing to rotating files. -/
theorem leveled_lines_witness :
    Logger.New Logger.rotateLogsNew ⟨"/var/log/app", "/var/log/tdr", 7, false⟩
      = some ⟨⟨⟨Encoder.main, WriteSyncer.rotate "/var/log/app.%Y%m%d" "/var/log/app" 168 1,
                Level.Info⟩, 3⟩,
              ⟨⟨Encoder.tdr, WriteSyncer.rotate "/var/log/tdr.%Y%m%d" "/var/log/tdr" 168 1,
                Level.Info⟩, 2⟩⟩ ∧
    ((⟨⟨⟨Encoder.main, WriteSyncer.rotate "/var/log/app.%Y%m%d" "/var/log/app" 168 1,
        Level.Info⟩, 3⟩,
      ⟨⟨Encoder.tdr, WriteSyncer.rotate "/var/log/tdr.%Y%m%d" "/var/log/tdr" 168 1,
        Level.Info⟩, 2⟩⟩ : zapLogger).Debug "m" [zapString "k" "v"] ⟨[], []⟩).out.main = [] :=
  ⟨by decide, (leveled_lines Logger.rotateLogsNew ⟨"/var/log/app", "/var/log/tdr", 7, false⟩ _
    (by decide) "m" [zapString "k" "v"] ⟨[], []⟩).1⟩

/-! ## Decimal rendering of indices -/

theorem digitChar_toNat (k : Nat) (h : k < 10) : (Nat.digitChar k).toNat = 48 + k := by
  interval_cases k <;> rfl

/-- The number a list of decimal digit characters denotes, most significant first. -/
theorem decimalValue_aux (l : List Char) (a : Nat) :
    l.foldl (fun v c => v * 10 + (c.toNat - 48)) a
      = a * 10 ^ l.length + l.foldl (fun v c => v * 10 + (c.toNat - 48)) 0 := by
  induction l generalizing a with
  | nil => simp
  | cons c l ih =>
    simp only [List.foldl_cons, List.length_cons]
    rw [ih (a * 10 + (c.toNat - 48)), ih (0 * 10 + (c.toNat - 48))]
    ring

theorem toDigitsCore_value (fuel n : Nat) (ds : List Char) (h : n < fuel) :
    (Nat.toDigitsCore 10 fuel n ds).foldl (fun v c => v * 10 + (c.toNat - 48)) 0
      = n * 10 ^ ds.length + ds.foldl (fun v c => v * 10 + (c.toNat - 48)) 0 := by
  induction fuel generalizing n ds with
  | zero => omega
  | succ fuel ih =>
    unfold Nat.toDigitsCore
    simp only
    have hd : (Nat.digitChar (n % 10)).toNat - 48 = n % 10 := by
      rw [digitChar_toNat (n % 10) (Nat.mod_lt n (by decide))]
      omega
    by_cases h0 : n / 10 = 0
    · simp only [h0, if_true, List.foldl_cons]
      rw [decimalValue_aux ds, hd]
      have : n % 10 = n := by omega
      simp [this]
    · simp only [h0, if_false]
      have hlt : n / 10 < fuel := by omega
      rw [ih (n / 10) (Nat.digitChar (n % 10) :: ds) hlt]
      simp only [List.foldl_cons, List.length_cons]
      rw [decimalValue_aux ds (0 * 10 + _), hd]
      have hn : n = 10 * (n / 10) + n % 10 := (Nat.div_add_mod n 10).symm
      have e2 : n * 10 ^ ds.length = (10 * (n / 10) + n % 10) * 10 ^ ds.length := by
        rw [← hn]
      rw [e2]
      ring

theorem natRepr_injective : Function.Injective (fun n : Nat => (toString n : String)) := by
  intro a b h
  have h1 : (Nat.toDigits 10 a) = (Nat.toDigits 10 b) := by
    have := congrArg String.data h
    simpa [toString, Nat.repr, List.asString] using this
  have ha := toDigitsCore_value (a + 1) a [] (Nat.lt_succ_self a)
  have hb := toDigitsCore_value (b + 1) b [] (Nat.lt_succ_self b)
  unfold Nat.toDigits at h1
  rw [h1] at ha
  rw [ha] at hb
  simpa using hb

theorem messageKey_injective :
    Function.Injective (fun n : Nat => "_message_" ++ (toString n : String)) := by
  intro a b h
  apply natRepr_injective
  have h1 := congrArg String.data h
  simp only [String.data_append] at h1
  exact String.ext (List.append_cancel_left h1)

/-! ## The positional value fields -/

theorem formatLogs_loop (json : JsonCodec) (message : List Value) (i : Nat) (acc : List Field) :
    message.foldl
      (fun (st : Nat × List Field) msg =>
        (st.1 + 1, st.2 ++ [FormatLog json ("_message_" ++ toString st.1) msg]))
      (i, acc)
    = (i + message.length,
       acc ++ (message.enumFrom i).map
         (fun p => FormatLog json ("_message_" ++ toString p.1) p.2)) := by
  induction message generalizing i acc with
  | nil => simp
  | cons m ms ih =>
    simp only [List.foldl_cons, List.enumFrom_cons, List.map_cons, List.length_cons]
    rw [ih]
    simp [Nat.add_comm, Nat.add_left_comm]

theorem formatLogs_eq_enum (json : JsonCodec) (message : List Value) :
    formatLogs json message
      = message.enum.map (fun p => FormatLog json ("_message_" ++ toString p.1) p.2) := by
  unfold formatLogs
  rw [formatLogs_loop]
  simp [List.enum]

theorem formatLogs_length (json : JsonCodec) (message : List Value) :
    (formatLogs json message).length = message.length := by
  simp [formatLogs_eq_enum]

theorem formatLogs_getElem (json : JsonCodec) (message : List Value) (i : Nat) :
    (formatLogs json message)[i]?
      = (message[i]?).map (fun m => FormatLog json ("_message_" ++ toString i) m) := by
  rw [formatLogs_eq_enum, List.getElem?_map, List.getElem?_enum]
  cases message[i]? <;> rfl

theorem formatLogs_keys (json : JsonCodec) (message : List Value) :
    (formatLogs json message).map Field.key
      = (List.range message.length).map (fun i => "_message_" ++ toString i) := by
  rw [formatLogs_eq_enum, ← List.enum_map_fst message, List.map_map, List.map_map]
  apply List.map_congr_left
  intro p _
  simp [FormatLog_key]

theorem formatLogs_keys_nodup (json : JsonCodec) (message : List Value) :
    ((formatLogs json message).map Field.key).Nodup := by
  rw [formatLogs_keys]
  exact List.Nodup.map messageKey_injective (List.nodup_range _)

/-! ## The trace methods -/

theorem zapLogger.Info_main (rot : String → String → Int → Int → Option WriteSyncer)
    (config : Options) (l : zapLogger) (h : Logger.New rot config = some l)
    (message : String) (fields : List Field) (w : Streams) :
    (l.Info message fields w).out = ⟨w.main ++ [⟨Level.Info, message, fields⟩], w.tdr⟩ := by
  have hl := (Logger.New_levels rot config l h).1
  simp [zapLogger.Info, zapLogger.leveled, ZapCoreLogger.write, hl, Level.toInt]

theorem zapLogger.Error_main (rot : String → String → Int → Int → Option WriteSyncer)
    (config : Options) (l : zapLogger) (h : Logger.New rot config = some l)
    (message : String) (fields : List Field) (w : Streams) :
    (l.Error message fields w).out = ⟨w.main ++ [⟨Level.Error, message, fields⟩], w.tdr⟩ := by
  have hl := (Logger.New_levels rot config l h).1
  simp [zapLogger.Error, zapLogger.leveled, ZapCoreLogger.write, hl, Level.toInt]

theorem trace_line_core (rot : String → String → Int → Int → Option WriteSyncer)
    (config : Options) (s : Session) (h : Logger.New rot config = some s.Logger)
    (json : JsonCodec) (message : List Value) (stop start : Time) (w : Streams) :
    (s.T3 json stop start message w).main = w.main ++ [⟨Level.Info, "|",
      [zapString "_app_tag" "T3", zapString "_app_thread_id" s.ThreadID,
       zapString "_app_method" s.Method, zapString "_app_uri" s.URL]
      ++ formatLogs json message
      ++ [zapString "_process_time" (sprintfMs (elapsedMillis stop start))]⟩] ∧
    (s.T4 json stop message w).main = w.main ++ [⟨Level.Info, "|",
      [zapString "_app_tag" "T4", zapString "_app_thread_id" s.ThreadID,
       zapString "_app_method" s.Method, zapString "_app_uri" s.URL]
      ++ formatLogs json message
      ++ [zapString "_response_time" (sprintfMs (elapsedMillis stop s.RequestTime))]⟩] := by
  constructor
  · simp only [Session.T3, zapLogger.Info_main rot config s.Logger h, Session.logRecord]
  · simp only [Session.T4, zapLogger.Info_main rot config s.Logger h, Session.logRecord,
      zapLogger.TDR]

/-- C7: on a session whose logger was built by `New`, each of `T1`, `T2`, `T3`, `T4`,
`Info` and `Error` appends one line to the main stream (level Info, level Error for
`Error`) whose fields start with `_app_tag` (the tag of the method), `_app_thread_id`,
`_app_method` and `_app_uri` of the session, followed by the value fields; there are as
many value fields as values, the `i`-th is `FormatLog` of key `_message_<i>` and the
`i`-th value, their keys are pairwise distinct, and no value gives no value field. -/
theorem trace_line_fields (rot : String → String → Int → Int → Option WriteSyncer)
    (config : Options) (s : Session) (h : Logger.New rot config = some s.Logger)
    (json : JsonCodec) (message : List Value) (now stop start : Time) (w : Streams) :
    (s.T1 json message w).main = w.main ++ [⟨Level.Info, "|",
      [zapString "_app_tag" "T1", zapString "_app_thread_id" s.ThreadID,
       zapString "_app_method" s.Method, zapString "_app_uri" s.URL]
      ++ formatLogs json message⟩] ∧
    (s.T2 json now message w).1.main = w.main ++ [⟨Level.Info, "|",
      [zapString "_app_tag" "T2", zapString "_app_thread_id" s.ThreadID,
       zapString "_app_method" s.Method, zapString "_app_uri" s.URL]
      ++ formatLogs json message⟩] ∧
    (s.T3 json stop start message w).main = w.main ++ [⟨Level.Info, "|",
      [zapString "_app_tag" "T3", zapString "_app_thread_id" s.ThreadID,
       zapString "_app_method" s.Method, zapString "_app_uri" s.URL]
      ++ formatLogs json message
      ++ [zapString "_process_time" (sprintfMs (elapsedMillis stop start))]⟩] ∧
    (s.T4 json stop message w).main = w.main ++ [⟨Level.Info, "|",
      [zapString "_app_tag" "T4", zapString "_app_thread_id" s.ThreadID,
       zapString "_app_method" s.Method, zapString "_app_uri" s.URL]
      ++ formatLogs json message
      ++ [zapString "_response_time" (sprintfMs (elapsedMillis stop s.RequestTime))]⟩] ∧
    (s.Info json message w).main = w.main ++ [⟨Level.Info, "|",
      [zapString "_app_tag" "INFO", zapString "_app_thread_id" s.ThreadID,
       zapString "_app_method" s.Method, zapString "_app_uri" s.URL]
      ++ formatLogs json message⟩] ∧
    (s.Error json message w).main = w.main ++ [⟨Level.Error, "|",
      [zapString "_app_tag" "ERROR", zapString "_app_thread_id" s.ThreadID,
       zapString "_app_method" s.Method, zapString "_app_uri" s.URL]
      ++ formatLogs json message⟩] ∧
    (formatLogs json message).length = message.length ∧
    (∀ i : Nat, (formatLogs json message)[i]?
      = (message[i]?).map (fun m => FormatLog json ("_message_" ++ toString i) m)) ∧
    ((formatLogs json message).map Field.key).Nodup ∧
    formatLogs json [] = [] := by
  refine ⟨?_, ?_, ?_, ?_, ?_, ?_, formatLogs_length json message,
    formatLogs_getElem json message, formatLogs_keys_nodup json message, rfl⟩
  · simp only [Session.T1, zapLogger.Info_main rot config s.Logger h, Session.logRecord]
  · simp only [Session.T2, zapLogger.Info_main rot config s.Logger h, Session.logRecord]
  · simp only [Session.T3, zapLogger.Info_main rot config s.Logger h, Session.logRecord]
  · simp only [Session.T4, zapLogger.Info_main rot config s.Logger h, Session.logRecord,
      zapLogger.TDR]
  · simp only [Session.Info, zapLogger.Info_main rot config s.Logger h, Session.logRecord]
  · simp only [Session.Error, zapLogger.Error_main rot config s.Logger h, Session.logRecord]

/-- Witness of C7: two values on a session with the console logger. -/
theorem trace_line_fields_witness :
    Logger.New Logger.rotateLogsNew ⟨"", "", 0, true⟩
      = some ((Session.New consoleLogger ⟨0⟩).SetThreadID "t-1").Logger ∧
    (((Session.New consoleLogger ⟨0⟩).SetThreadID "t-1").T1 jsoniterCompatible
        [Value.str "x", Value.int 3] ⟨[], []⟩).main
      = [] ++ [⟨Level.Info, "|",
          [zapString "_app_tag" "T1", zapString "_app_thread_id" "t-1",
           zapString "_app_method" "", zapString "_app_uri" ""]
          ++ formatLogs jsoniterCompatible [Value.str "x", Value.int 3]⟩] :=
  ⟨rfl, (trace_line_fields Logger.rotateLogsNew ⟨"", "", 0, true⟩
    ((Session.New consoleLogger ⟨0⟩).SetThreadID "t-1") rfl jsoniterCompatible
    [Value.str "x", Value.int 3] ⟨0⟩ ⟨0⟩ ⟨0⟩ ⟨[], []⟩).1⟩

/-! ## Elapsed milliseconds -/

theorem elapsedMillis_of_fit (stop start : Time)
    (h : minDuration ≤ stop.ns - start.ns ∧ stop.ns - start.ns ≤ maxDuration) :
    elapsedMillis stop start = Int.tdiv (stop.ns - start.ns) 1000000 := by
  unfold elapsedMillis Time.Sub
  simp only
  rw [if_neg (by omega), if_neg (by omega)]

theorem elapsedMillis_of_above (stop start : Time) (h : maxDuration < stop.ns - start.ns) :
    elapsedMillis stop start = 9223372036854 := by
  unfold elapsedMillis Time.Sub
  simp only
  rw [if_pos h]
  decide

theorem elapsedMillis_of_below (stop start : Time) (h : stop.ns - start.ns < minDuration) :
    elapsedMillis stop start = -9223372036854 := by
  unfold elapsedMillis Time.Sub
  simp only
  have h2 : ¬ maxDuration < stop.ns - start.ns := by
    unfold maxDuration
    unfold minDuration at h
    omega
  rw [if_neg h2, if_pos h]
  decide

/-- C6, as stated, fails: with the zero time as start and a reading of November 2026 as
stop, `T3` renders the saturated duration, not the elapsed milliseconds. -/
theorem t3_duration_saturates :
    ¬ (∀ (rot : String → String → Int → Int → Option WriteSyncer) (config : Options)
        (s : Session) (json : JsonCodec) (message : List Value) (stop start : Time)
        (w : Streams), Logger.New rot config = some s.Logger →
        (s.T3 json stop start message w).main = w.main ++ [⟨Level.Info, "|",
          [zapString "_app_tag" "T3", zapString "_app_thread_id" s.ThreadID,
           zapString "_app_method" s.Method, zapString "_app_uri" s.URL]
          ++ formatLogs json message
          ++ [zapString "_process_time"
                (toString (Int.tdiv (stop.ns - start.ns) 1000000) ++ " ms")]⟩] ∧
        (s.T3 json stop start message w).tdr = w.tdr) := by
  intro h
  have h1 := (h Logger.rotateLogsNew ⟨"", "", 0, true⟩ (Session.New consoleLogger ⟨0⟩)
    jsoniterCompatible [] ⟨63929347200000000000⟩ ⟨0⟩ ⟨[], []⟩ rfl).1
  have h2 := congrArg (fun l : List Entry => l.map (fun e => e.fields.map (fun f =>
    match f.val with
    | FieldVal.string x => x
    | _ => ""))) h1
  revert h2
  decide

/-- C6, amended: on a session whose logger was built by `New`, `T3` appends one Info
line tagged "T3" to the main stream and nothing to the TDR stream; its last field
`_process_time`, after the value fields, renders `(stop - start)/1000000` followed by
" ms" when `stop - start` fits an int64 count of nanoseconds, and the saturated
9223372036854 (or -9223372036854) when it is above (or below) that range. -/
theorem t3_process_time (rot : String → String → Int → Int → Option WriteSyncer)
    (config : Options) (s : Session) (h : Logger.New rot config = some s.Logger)
    (json : JsonCodec) (message : List Value) (stop start : Time) (w : Streams) :
    (s.T3 json stop start message w).tdr = w.tdr ∧
    (minDuration ≤ stop.ns - start.ns ∧ stop.ns - start.ns ≤ maxDuration →
      (s.T3 json stop start message w).main = w.main ++ [⟨Level.Info, "|",
        [zapString "_app_tag" "T3", zapString "_app_thread_id" s.ThreadID,
         zapString "_app_method" s.Method, zapString "_app_uri" s.URL]
        ++ formatLogs json message
        ++ [zapString "_process_time"
              (toString (Int.tdiv (stop.ns - start.ns) 1000000) ++ " ms")]⟩]) ∧
    (maxDuration < stop.ns - start.ns →
      (s.T3 json stop start message w).main = w.main ++ [⟨Level.Info, "|",
        [zapString "_app_tag" "T3", zapString "_app_thread_id" s.ThreadID,
         zapString "_app_method" s.Method, zapString "_app_uri" s.URL]
        ++ formatLogs json message
        ++ [zapString "_process_time" "9223372036854 ms"]⟩]) ∧
    (stop.ns - start.ns < minDuration →
      (s.T3 json stop start message w).main = w.main ++ [⟨Level.Info, "|",
        [zapString "_app_tag" "T3", zapString "_app_thread_id" s.ThreadID,
         zapString "_app_method" s.Method, zapString "_app_uri" s.URL]
        ++ formatLogs json message
        ++ [zapString "_process_time" "-9223372036854 ms"]⟩]) := by
  have hm := (trace_line_core rot config s h json message stop start w).1
  refine ⟨?_, ?_, ?_, ?_⟩
  · simp only [Session.T3, zapLogger.Info_main rot config s.Logger h]
  · intro hfit
    rw [hm, elapsedMillis_of_fit stop start hfit]
    rfl
  · intro hab
    rw [hm, elapsedMillis_of_above stop start hab]
    rfl
  · intro hbe
    rw [hm, elapsedMillis_of_below stop start hbe]
    rfl

/-- Witness of C6 amended: 2.5 ms elapsed, then a start at the zero time, then a start
far in the future. -/
theorem t3_process_time_witness :
    Logger.New Logger.rotateLogsNew ⟨"", "", 0, true⟩
      = some (Session.New consoleLogger ⟨0⟩).Logger ∧
    ((minDuration ≤ (7500000 : Int) - 5000000 ∧ (7500000 : Int) - 5000000 ≤ maxDuration) ∧
      ((Session.New consoleLogger ⟨0⟩).T3 jsoniterCompatible ⟨7500000⟩ ⟨5000000⟩ []
          ⟨[], []⟩).main
        = [] ++ [⟨Level.Info, "|",
            [zapString "_app_tag" "T3", zapString "_app_thread_id" "",
             zapString "_app_method" "", zapString "_app_uri" ""]
            ++ formatLogs jsoniterCompatible []
            ++ [zapString "_process_time"
                  (toString (Int.tdiv ((7500000 : Int) - 5000000) 1000000) ++ " ms")]⟩]) ∧
    (maxDuration < (63929347200000000000 : Int) - 0 ∧
      ((Session.New consoleLogger ⟨0⟩).T3 jsoniterCompatible ⟨63929347200000000000⟩ ⟨0⟩ []
          ⟨[], []⟩).main
        = [] ++ [⟨Level.Info, "|",
            [zapString "_app_tag" "T3", zapString "_app_thread_id" "",
             zapString "_app_method" "", zapString "_app_uri" ""]
            ++ formatLogs jsoniterCompatible []
            ++ [zapString "_process_time" "9223372036854 ms"]⟩]) ∧
    ((0 : Int) - 63929347200000000000 < minDuration ∧
      ((Session.New consoleLogger ⟨0⟩).T3 jsoniterCompatible ⟨0⟩ ⟨63929347200000000000⟩ []
          ⟨[], []⟩).main
        = [] ++ [⟨Level.Info, "|",
            [zapString "_app_tag" "T3", zapString "_app_thread_id" "",
             zapString "_app_method" "", zapString "_app_uri" ""]
            ++ formatLogs jsoniterCompatible []
            ++ [zapString "_process_time" "-9223372036854 ms"]⟩]) :=
  ⟨rfl,
   ⟨by decide, (t3_process_time Logger.rotateLogsNew ⟨"", "", 0, true⟩
      (Session.New consoleLogger ⟨0⟩) rfl jsoniterCompatible [] ⟨7500000⟩ ⟨5000000⟩
      ⟨[], []⟩).2.1 (by decide)⟩,
   ⟨by decide, (t3_process_time Logger.rotateLogsNew ⟨"", "", 0, true⟩
      (Session.New consoleLogger ⟨0⟩) rfl jsoniterCompatible [] ⟨63929347200000000000⟩ ⟨0⟩
      ⟨[], []⟩).2.2.1 (by decide)⟩,
   ⟨by decide, (t3_process_time Logger.rotateLogsNew ⟨"", "", 0, true⟩
      (Session.New consoleLogger ⟨0⟩) rfl jsoniterCompatible [] ⟨0⟩ ⟨63929347200000000000⟩
      ⟨[], []⟩).2.2.2 (by decide)⟩⟩

/-- C2, as stated, fails: on a session value whose `RequestTime` is the zero time (a
`Session` literal with a console logger), `T4` at a reading of November 2026 logs the
saturated 9223372036854 as `rt`, not the 63929347200000 milliseconds between the two. -/
theorem t4_rt_saturates :
    ¬ (∀ (rot : String → String → Int → Int → Option WriteSyncer) (config : Options)
        (s : Session) (json : JsonCodec) (message : List Value) (stop : Time)
        (w : Streams), Logger.New rot config = some s.Logger →
        (s.T4 json stop message w).main = w.main ++ [⟨Level.Info, "|",
          [zapString "_app_tag" "T4", zapString "_app_thread_id" s.ThreadID,
           zapString "_app_method" s.Method, zapString "_app_uri" s.URL]
          ++ formatLogs json message
          ++ [zapString "_response_time"
                (toString (Int.tdiv (stop.ns - s.RequestTime.ns) 1000000) ++ " ms")]⟩] ∧
        (s.T4 json stop message w).tdr = w.tdr ++ [⟨Level.Info, "|",
          tdrFields json
            (s.tdrModel (Int.tdiv (stop.ns - s.RequestTime.ns) 1000000) message)⟩]) := by
  intro h
  have h1 := (h Logger.rotateLogsNew ⟨"", "", 0, true⟩
    { Map := [], Logger := consoleLogger, RequestTime := ⟨0⟩, ThreadID := "", AppName := "",
      AppVersion := "", IP := "", Port := 0, SrcIP := "", URL := "", Method := "",
      Header := Value.nil, Request := Value.nil, ErrorMessage := "" }
    jsoniterCompatible [] ⟨63929347200000000000⟩ ⟨[], []⟩ rfl).2
  have h2 := congrArg (fun l : List Entry => l.map (fun e => e.fields.map (fun f =>
    match f.val with
    | FieldVal.int64 x => x
    | _ => 0))) h1
  revert h2
  decide

/-- C2, amended: on a session whose logger was built by `New`, `T4` appends exactly one
line to each stream: an Info line tagged "T4" on the main stream and an Info record on
the TDR stream.  When `stop - RequestTime` fits an int64 count of nanoseconds, the `rt`
of the record is `(stop - RequestTime)/1000000` and `_response_time` is that number
followed by " ms"; above (below) that range `rt` is the saturated 9223372036854
(-9223372036854), and `_response_time` renders the same number. -/
theorem t4_two_lines (rot : String → String → Int → Int → Option WriteSyncer)
    (config : Options) (s : Session) (h : Logger.New rot config = some s.Logger)
    (json : JsonCodec) (message : List Value) (stop : Time) (w : Streams) :
    (minDuration ≤ stop.ns - s.RequestTime.ns ∧ stop.ns - s.RequestTime.ns ≤ maxDuration →
      (s.T4 json stop message w).main = w.main ++ [⟨Level.Info, "|",
        [zapString "_app_tag" "T4", zapString "_app_thread_id" s.ThreadID,
         zapString "_app_method" s.Method, zapString "_app_uri" s.URL]
        ++ formatLogs json message
        ++ [zapString "_response_time"
              (toString (Int.tdiv (stop.ns - s.RequestTime.ns) 1000000) ++ " ms")]⟩] ∧
      (s.T4 json stop message w).tdr = w.tdr ++ [⟨Level.Info, "|",
        tdrFields json
          (s.tdrModel (Int.tdiv (stop.ns - s.RequestTime.ns) 1000000) message)⟩] ∧
      fieldOf "rt" (tdrFields json
          (s.tdrModel (Int.tdiv (stop.ns - s.RequestTime.ns) 1000000) message))
        = some (zapInt64 "rt" (Int.tdiv (stop.ns - s.RequestTime.ns) 1000000))) ∧
    (maxDuration < stop.ns - s.RequestTime.ns →
      (s.T4 json stop message w).main = w.main ++ [⟨Level.Info, "|",
        [zapString "_app_tag" "T4", zapString "_app_thread_id" s.ThreadID,
         zapString "_app_method" s.Method, zapString "_app_uri" s.URL]
        ++ formatLogs json message
        ++ [zapString "_response_time" "9223372036854 ms"]⟩] ∧
      (s.T4 json stop message w).tdr = w.tdr ++ [⟨Level.Info, "|",
        tdrFields json (s.tdrModel 9223372036854 message)⟩]) ∧
    (stop.ns - s.RequestTime.ns < minDuration →
      (s.T4 json stop message w).main = w.main ++ [⟨Level.Info, "|",
        [zapString "_app_tag" "T4", zapString "_app_thread_id" s.ThreadID,
         zapString "_app_method" s.Method, zapString "_app_uri" s.URL]
        ++ formatLogs json message
        ++ [zapString "_response_time" "-9223372036854 ms"]⟩] ∧
      (s.T4 json stop message w).tdr = w.tdr ++ [⟨Level.Info, "|",
        tdrFields json (s.tdrModel (-9223372036854) message)⟩]) := by
  have hm := (trace_line_core rot config s h json message stop stop w).2
  have hl := (Logger.New_levels rot config s.Logger h).2
  have ht : (s.T4 json stop message w).tdr = w.tdr ++ [⟨Level.Info, "|",
      tdrFields json (s.tdrModel (elapsedMillis stop s.RequestTime) message)⟩] := by
    simp only [Session.T4, zapLogger.TDR, zapLogger.Info_main rot config s.Logger h]
    rw [ZapCoreLogger.write_enabled]
    rw [hl]
  refine ⟨?_, ?_, ?_⟩
  · intro hfit
    rw [hm, ht, elapsedMillis_of_fit stop s.RequestTime hfit]
    exact ⟨rfl, rfl, rfl⟩
  · intro hab
    rw [hm, ht, elapsedMillis_of_above stop s.RequestTime hab]
    exact ⟨rfl, rfl⟩
  · intro hbe
    rw [hm, ht, elapsedMillis_of_below stop s.RequestTime hbe]
    exact ⟨rfl, rfl⟩

/-- Witness of C2 amended: a session created at 1 s and closed at 3.2 s, then a
session whose `RequestTime` is the zero time, then a stop before the zero time. -/
theorem t4_two_lines_witness :
    Logger.New Logger.rotateLogsNew ⟨"", "", 0, true⟩
      = some (Session.New consoleLogger ⟨1000000000⟩).Logger ∧
    ((minDuration ≤ (3200000000 : Int) - 1000000000 ∧
        (3200000000 : Int) - 1000000000 ≤ maxDuration) ∧
      fieldOf "rt" (tdrFields jsoniterCompatible
          ((Session.New consoleLogger ⟨1000000000⟩).tdrModel
            (Int.tdiv ((3200000000 : Int) - 1000000000) 1000000) []))
        = some (zapInt64 "rt" (Int.tdiv ((3200000000 : Int) - 1000000000) 1000000))) ∧
    (maxDuration < (63929347200000000000 : Int) - 0 ∧
      ((Session.New consoleLogger ⟨0⟩).T4 jsoniterCompatible ⟨63929347200000000000⟩ []
          ⟨[], []⟩).tdr
        = [] ++ [⟨Level.Info, "|", tdrFields jsoniterCompatible
            ((Session.New consoleLogger ⟨0⟩).tdrModel 9223372036854 [])⟩]) ∧
    ((-63929347200000000000 : Int) - 0 < minDuration ∧
      ((Session.New consoleLogger ⟨0⟩).T4 jsoniterCompatible ⟨-63929347200000000000⟩ []
          ⟨[], []⟩).tdr
        = [] ++ [⟨Level.Info, "|", tdrFields jsoniterCompatible
            ((Session.New consoleLogger ⟨0⟩).tdrModel (-9223372036854) [])⟩]) :=
  ⟨rfl,
   ⟨by decide, ((t4_two_lines Logger.rotateLogsNew ⟨"", "", 0, true⟩
      (Session.New consoleLogger ⟨1000000000⟩) rfl jsoniterCompatible [] ⟨3200000000⟩
      ⟨[], []⟩).1 (by decide)).2.2⟩,
   ⟨by decide, ((t4_two_lines Logger.rotateLogsNew ⟨"", "", 0, true⟩
      (Session.New consoleLogger ⟨0⟩) rfl jsoniterCompatible [] ⟨63929347200000000000⟩
      ⟨[], []⟩).2.1 (by decide)).2⟩,
   ⟨by decide, ((t4_two_lines Logger.rotateLogsNew ⟨"", "", 0, true⟩
      (Session.New consoleLogger ⟨0⟩) rfl jsoniterCompatible [] ⟨-63929347200000000000⟩
      ⟨[], []⟩).2.2 (by decide)).2⟩⟩

/-! ## The record of `T4` and the calls before it -/

theorem lastArg_cons {α : Type} (sel : Call → Option α) (c : Call) (cs : List Call) (d : α) :
    (lastArg sel (c :: cs)).getD d = (lastArg sel cs).getD ((sel c).getD d) := by
  unfold lastArg
  cases hc : sel c with
  | none => simp [List.filterMap_cons, hc]
  | some a =>
    simp only [List.filterMap_cons, hc, List.getLast?_cons, Option.getD_some]

theorem Session.calls_proj {α : Type} (proj : Session → α) (sel : Call → Option α)
    (hstep : ∀ (s : Session) (c : Call), proj (s.call c) = (sel c).getD (proj s))
    (cs : List Call) (s : Session) :
    proj (s.calls cs) = (lastArg sel cs).getD (proj s) := by
  induction cs generalizing s with
  | nil => rfl
  | cons c cs ih =>
    show proj ((s.call c).calls cs) = _
    rw [ih (s.call c), hstep s c, lastArg_cons]

theorem Session.calls_logger (cs : List Call) (s : Session) :
    (s.calls cs).Logger = s.Logger ∧ (s.calls cs).RequestTime = s.RequestTime := by
  induction cs generalizing s with
  | nil => exact ⟨rfl, rfl⟩
  | cons c cs ih =>
    show ((s.call c).calls cs).Logger = _ ∧ ((s.call c).calls cs).RequestTime = _
    rw [(ih (s.call c)).1, (ih (s.call c)).2]
    cases c <;> exact ⟨rfl, rfl⟩

theorem Session.calls_get (cs : List Call) (s : Session) (k : String) :
    (s.calls cs).Get k
      = match lastArg (Call.putData k) cs with
        | some d => (d, none)
        | none => s.Get k := by
  induction cs generalizing s with
  | nil => rfl
  | cons c cs ih =>
    show ((s.call c).calls cs).Get k = _
    rw [ih (s.call c)]
    unfold lastArg
    cases hc : Call.putData k c with
    | none =>
      rw [List.filterMap_cons_none hc]
      have hg : (s.call c).Get k = s.Get k := by
        unfold Session.Get
        rw [Session.call_map_get s c k]
        intro hp
        cases c <;> simp [Call.putKey, Call.putData] at hp hc
        exact hc hp
      rw [hg]
    | some d =>
      rw [List.filterMap_cons_some hc, List.getLast?_cons]
      have hg : (s.call c).Get k = (d, none) := by
        cases c <;> simp [Call.putData] at hc
        obtain ⟨hj, hd⟩ := hc
        subst hj hd
        simp [Session.call, Session.Get, Session.Put, ConcurrentMap.get_set_same]
      rw [hg]
      cases (List.filterMap (Call.putData k) cs).getLast? <;> rfl

/-- C3: for a session created by `New` and any sequence of setter and `Put` calls, `T4`
hands to `Logger.TDR` (after the Info line) the record whose every field is the
argument of the last call of its setter, or the initial value of `New` when there is
none: app name, app version, IP, port, source IP, path (the URL), header, request,
error message and thread ID; its response is the values supplied, its additional data
the key-value store of the session, in which every key holds the data of its last
`Put` and a key never put is not found. -/
theorem t4_record_final_state (logger : zapLogger) (now stop : Time) (cs : List Call)
    (json : JsonCodec) (message : List Value) (w : Streams) :
    ((Session.New logger now).calls cs).T4 json stop message w
      = logger.TDR json
          { AppName := (lastArg Call.appName cs).getD ""
            AppVersion := (lastArg Call.appVersion cs).getD ""
            IP := (lastArg Call.ip cs).getD ""
            Port := (lastArg Call.port cs).getD 0
            SrcIP := (lastArg Call.srcIP cs).getD ""
            RespTime := elapsedMillis stop now
            Path := (lastArg Call.url cs).getD ""
            Header := (lastArg Call.header cs).getD (Value.object [])
            Request := (lastArg Call.request cs).getD Value.emptyStruct
            Response := Value.slice message
            Error := (lastArg Call.errorMessage cs).getD ""
            ThreadID := (lastArg Call.threadID cs).getD ""
            AdditionalData := Value.cmap ((Session.New logger now).calls cs).Map }
          (logger.Info "|"
            (((Session.New logger now).calls cs).logRecord "T4" ++ formatLogs json message
              ++ [zapString "_response_time" (sprintfMs (elapsedMillis stop now))]) w).out ∧
    (∀ k : String, ((Session.New logger now).calls cs).Get k
      = match lastArg (Call.putData k) cs with
        | some d => (d, none)
        | none => (Value.nil, some "not found")) := by
  constructor
  · have hL := (Session.calls_logger cs (Session.New logger now)).1
    have hR := (Session.calls_logger cs (Session.New logger now)).2
    have h1 := Session.calls_proj Session.AppName Call.appName
      (fun s c => by cases c <;> rfl) cs (Session.New logger now)
    have h2 := Session.calls_proj Session.AppVersion Call.appVersion
      (fun s c => by cases c <;> rfl) cs (Session.New logger now)
    have h3 := Session.calls_proj Session.IP Call.ip
      (fun s c => by cases c <;> rfl) cs (Session.New logger now)
    have h4 := Session.calls_proj Session.Port Call.port
      (fun s c => by cases c <;> rfl) cs (Session.New logger now)
    have h5 := Session.calls_proj Session.SrcIP Call.srcIP
      (fun s c => by cases c <;> rfl) cs (Session.New logger now)
    have h6 := Session.calls_proj Session.URL Call.url
      (fun s c => by cases c <;> rfl) cs (Session.New logger now)
    have h7 := Session.calls_proj Session.Header Call.header
      (fun s c => by cases c <;> rfl) cs (Session.New logger now)
    have h8 := Session.calls_proj Session.Request Call.request
      (fun s c => by cases c <;> rfl) cs (Session.New logger now)
    have h9 := Session.calls_proj Session.ErrorMessage Call.errorMessage
      (fun s c => by cases c <;> rfl) cs (Session.New logger now)
    have h10 := Session.calls_proj Session.ThreadID Call.threadID
      (fun s c => by cases c <;> rfl) cs (Session.New logger now)
    simp only [Session.T4, Session.tdrModel, hL, hR, h1, h2, h3, h4, h5, h6, h7, h8, h9, h10]
    rfl
  · intro k
    rw [Session.calls_get]
    cases lastArg (Call.putData k) cs <;> rfl

/-! ## Health handler -/

/-- C9: for every context and every request, nil included, `Check` returns a response
whose status is SERVING and a nil error; for every request and stream, `Watch` returns
a nil error and leaves the messages sent on the stream as they were. -/
theorem health_check_serving :
    (∀ (ctx : Health.Context) (req : Option Health.HealthCheckRequest),
      (Health.Check ctx req).1.Status = Health.ServingStatus.SERVING ∧
      (Health.Check ctx req).2 = none) ∧
    (∀ (req : Option Health.HealthCheckRequest) (w : Health.WatchServer),
      (Health.Watch req w).2 = none ∧ (Health.Watch req w).1.sent = w.sent) :=
  ⟨fun _ _ => ⟨rfl, rfl⟩, fun _ _ => ⟨rfl, rfl⟩⟩

/-! ## Thread identifiers -/

theorem crockfordChar_index : ∀ d, d < 32 → crockford.indexOf (crockfordChar d) = d := by
  decide

theorem encode32_length (n v : Nat) : (encode32 n v).length = n := by
  induction n generalizing v with
  | zero => rfl
  | succ n ih => simp [encode32, ih]

theorem encode32_injective (n a b : Nat) (ha : a < 32 ^ n) (hb : b < 32 ^ n)
    (h : encode32 n a = encode32 n b) : a = b := by
  induction n generalizing a b with
  | zero =>
    simp at ha hb
    omega
  | succ n ih =>
    simp only [encode32] at h
    have hl : (encode32 n (a / 32)).length = (encode32 n (b / 32)).length := by
      rw [encode32_length, encode32_length]
    obtain ⟨h1, h2⟩ := List.append_inj h hl
    have hq : a / 32 = b / 32 := by
      apply ih
      · rw [Nat.pow_succ] at ha
        omega
      · rw [Nat.pow_succ] at hb
        omega
      · exact h1
    have hc : crockfordChar (a % 32) = crockfordChar (b % 32) := by
      simpa using h2
    have hr : a % 32 = b % 32 := by
      rw [← crockfordChar_index (a % 32) (Nat.mod_lt a (by decide)),
        ← crockfordChar_index (b % 32) (Nat.mod_lt b (by decide)), hc]
    omega

theorem ulidString_injective (m1 e1 m2 e2 : Nat) (hm1 : m1 ≤ ulidMaxTime)
    (hm2 : m2 ≤ ulidMaxTime) (he1 : e1 < 1208925819614629174706176)
    (he2 : e2 < 1208925819614629174706176) (h : ulidString m1 e1 = ulidString m2 e2) :
    m1 = m2 ∧ e1 = e2 := by
  unfold ulidString at h
  have h1 := congrArg String.data h
  simp only at h1
  have hl : (encode32 10 m1).length = (encode32 10 m2).length := by
    rw [encode32_length, encode32_length]
  obtain ⟨ha, hb⟩ := List.append_inj h1 hl
  unfold ulidMaxTime at hm1 hm2
  constructor
  · apply encode32_injective 10 m1 m2 _ _ ha
    · norm_num
      omega
    · norm_num
      omega
  · apply encode32_injective 16 e1 e2 _ _ hb
    · norm_num
      omega
    · norm_num
      omega

theorem GenerateThreadID_eq_iff (randRead : Int → Nat) (t u : Time)
    (ht : ulidTimestamp t ≤ ulidMaxTime) (hu : ulidTimestamp u ≤ ulidMaxTime) :
    GenerateThreadID randRead t = GenerateThreadID randRead u ↔
      ulidTimestamp t = ulidTimestamp u ∧
      randRead t.UnixNano % 1208925819614629174706176
        = randRead u.UnixNano % 1208925819614629174706176 := by
  unfold GenerateThreadID
  simp only
  rw [if_neg (by omega), if_neg (by omega)]
  constructor
  · intro h
    exact ulidString_injective _ _ _ _ ht hu (Nat.mod_lt _ (by decide))
      (Nat.mod_lt _ (by decide)) (Option.some.inj h)
  · rintro ⟨h1, h2⟩
    rw [h1, h2]

/-- C10, as stated, fails: 10,000 calls that all observe the same clock reading (a
non-decreasing sequence) return 10,000 times the same identifier, whatever the
generator behind the seed. -/
theorem thread_ids_collide :
    ¬ (∀ (randRead : Int → Nat) (ts : List Time), ts.length = 10000 →
        ts.Pairwise (fun a b => a.ns ≤ b.ns) →
        (ts.map (GenerateThreadID randRead)).Nodup) := by
  intro h
  have h1 := h (fun _ => 0) (List.replicate 10000 ⟨63929347200000000000⟩)
    (List.length_replicate 10000 _) (List.pairwise_replicate.mpr (Or.inr (le_refl _)))
  rw [List.map_replicate, List.nodup_replicate] at h1
  omega

/-- C10, amended: every call whose reading lies between 1970 and the largest ULID time
returns an identifier; two such calls return the same identifier exactly when they
have the same millisecond and their seeded generators yield the same ten bytes, so
calls with the same reading collide; and the identifiers of any sequence of calls
(10,000 or not) whose readings fall in pairwise different milliseconds are pairwise
distinct. -/
theorem thread_ids_distinct_ms (randRead : Int → Nat) :
    (∀ t : Time, ulidTimestamp t ≤ ulidMaxTime → (GenerateThreadID randRead t).isSome) ∧
    (∀ t u : Time, ulidTimestamp t ≤ ulidMaxTime → ulidTimestamp u ≤ ulidMaxTime →
      (GenerateThreadID randRead t = GenerateThreadID randRead u ↔
        ulidTimestamp t = ulidTimestamp u ∧
        randRead t.UnixNano % 1208925819614629174706176
          = randRead u.UnixNano % 1208925819614629174706176)) ∧
    (∀ ts : List Time, (∀ t ∈ ts, ulidTimestamp t ≤ ulidMaxTime) →
      (ts.map ulidTimestamp).Nodup → (ts.map (GenerateThreadID randRead)).Nodup) := by
  refine ⟨?_, GenerateThreadID_eq_iff randRead, ?_⟩
  · intro t ht
    unfold GenerateThreadID
    simp only
    rw [if_neg (by omega)]
    rfl
  · intro ts hts hnd
    induction ts with
    | nil => exact List.nodup_nil
    | cons t ts ih =>
      rw [List.map_cons, List.nodup_cons] at hnd ⊢
      refine ⟨?_, ih (fun u hu => hts u (List.mem_cons_of_mem t hu)) hnd.2⟩
      intro hmem
      obtain ⟨u, hu, he⟩ := List.mem_map.mp hmem
      have hiff := (GenerateThreadID_eq_iff randRead u t
        (hts u (List.mem_cons_of_mem t hu)) (hts t (List.mem_cons_self t ts))).mp he
      exact hnd.1 (List.mem_map.mpr ⟨u, hu, hiff.1⟩)

theorem ulidTimestamp_sample : ulidTimestamp ⟨63929347200000000000⟩ = 1793750400000 := by decide

/-- Witness of C10 amended: one reading of November 2026, then two readings one
millisecond apart, with a generator that always yields zero bytes. -/
theorem thread_ids_distinct_ms_witness :
    (ulidTimestamp ⟨63929347200000000000⟩ ≤ ulidMaxTime ∧
      (GenerateThreadID (fun _ => 0) ⟨63929347200000000000⟩).isSome) ∧
    ((ulidTimestamp ⟨63929347200000000000⟩ ≤ ulidMaxTime ∧
        ulidTimestamp ⟨63929347200000000007⟩ ≤ ulidMaxTime) ∧
      (GenerateThreadID (fun _ => 0) ⟨63929347200000000000⟩
          = GenerateThreadID (fun _ => 0) ⟨63929347200000000007⟩ ↔
        ulidTimestamp ⟨63929347200000000000⟩ = ulidTimestamp ⟨63929347200000000007⟩ ∧
        (fun _ => 0) (Time.UnixNano ⟨63929347200000000000⟩) % 1208925819614629174706176
          = (fun _ => 0) (Time.UnixNano ⟨63929347200000000007⟩)
              % 1208925819614629174706176)) ∧
    ((∀ t ∈ [(⟨63929347200000000000⟩ : Time), ⟨63929347200001000000⟩],
        ulidTimestamp t ≤ ulidMaxTime) ∧
      ([(⟨63929347200000000000⟩ : Time), ⟨63929347200001000000⟩].map ulidTimestamp).Nodup ∧
      ([(⟨63929347200000000000⟩ : Time), ⟨63929347200001000000⟩].map
        (GenerateThreadID (fun _ => 0))).Nodup) :=
  ⟨⟨by decide, (thread_ids_distinct_ms (fun _ => 0)).1 _ (by decide)⟩,
   ⟨⟨by decide, by decide⟩,
    (thread_ids_distinct_ms (fun _ => 0)).2.1 _ _ (by decide) (by decide)⟩,
   ⟨by decide, by decide,
    (thread_ids_distinct_ms (fun _ => 0)).2.2 _ (by decide) (by decide)⟩⟩

end GoPkg
